import Mathlib

/-!
The `registry pull` command of sealctl: validation of `--auths` and dispatch to the image
saver

A shallow embedding of `cmd/sealctl/cmd/registry.go`.

* Go `string` is `String`, Go `error` is `Option String` (`none` is `nil`).
* A Go `map[string]V` is an association list that `set` keeps free of duplicate keys.
* `os.Exit(n)` is `Except.error n`; everything the process does that is visible from outside
  (log lines, calls into `pkg/registry`) is recorded, in order, in a list of `Event`s.
* The helpers of other packages of the repository (`file.IsExist`, `maps.StringToMap`,
  `passwd.LoginAuthDecode`, `file.ReadLines`, `buildimage.ParseYamlImages`,
  `registry.NewImageSaver(...).SaveImages`) are fields of `Env`: every theorem holds for
  whatever these helpers compute.
-/

namespace Sealos

/-! ## Go maps -/

/-- Go `map[string]V`. -/
abbrev GoMap (V : Type) := List (String × V)

namespace GoMap

/-- The two-valued lookup `v, ok := m[k]`. -/
def get? {V : Type} : GoMap V → String → Option V
  | [], _ => none
  | (k', v) :: rest, k => if k' = k then some v else get? rest k

/-- The one-valued lookup `m[k]` on a `map[string]string`: the zero value when `k` is absent. -/
def index (m : GoMap String) (k : String) : String := (m.get? k).getD ""

/-- The map without any binding of `k`. -/
def erase {V : Type} : GoMap V → String → GoMap V
  | [], _ => []
  | (k', v) :: rest, k => if k' = k then erase rest k else (k', v) :: erase rest k

/-- The assignment `m[k] = v`: any former binding of `k` is dropped. -/
def set {V : Type} (m : GoMap V) (k : String) (v : V) : GoMap V :=
  (k, v) :: m.erase k

/-- The keys bound in the map. -/
def keys {V : Type} (m : GoMap V) : List String := m.map Prod.fst

end GoMap

/-! ## `strings.Split` -/

/-- Pieces of a character list between the occurrences of `sep`. -/
def splitOnChar (sep : Char) : List Char → List (List Char)
  | [] => [[]]
  | c :: cs =>
    if c = sep then [] :: splitOnChar sep cs
    else
      match splitOnChar sep cs with
      | [] => [[c]]
      | p :: ps => (c :: p) :: ps

/-- Go `strings.Split(s, sep)` for a separator of one character, the only way the command
calls it (`":"`): the substrings between the separators, one more than there are separators. -/
def strings.Split (s : String) (sep : Char) : List String :=
  (splitOnChar sep s.data).map String.mk

/-! ## Data -/

/-- Docker `types.AuthConfig`; every field is the empty string unless set. -/
structure AuthConfig where
  Username : String := ""
  Password : String := ""
  Auth : String := ""
  Email : String := ""
  ServerAddress : String := ""
  IdentityToken : String := ""
  RegistryToken : String := ""
  deriving DecidableEq, Repr

/-- OCI `v1.Platform`, the two fields the command fills in. -/
structure Platform where
  Architecture : String := ""
  OS : String := ""
  deriving DecidableEq, Repr

/-- Modelled from the spec: the per-image outcome of `SaveImages` (spec §3, PullOutcome);
`pkg/registry` is not among the sources. -/
structure PullOutcome where
  imageReference : String
  success : Bool
  errorDetail : String := ""
  newDigests : List String := []
  deriving DecidableEq, Repr

/-- Modelled from the spec: the aggregate report of `SaveImages` (spec §4.6);
`pkg/registry` is not among the sources. -/
structure Report where
  succeededCount : Nat := 0
  failedCount : Nat := 0
  outcomes : List PullOutcome := []
  deriving DecidableEq, Repr

/-- The package-level flag variables and the flag variables of the three subcommands. -/
structure Flags where
  registryPullRegistryDir : String
  registryPullAuths : List String
  registryPullArch : String
  registryPullMaxPullProcs : Int
  registryPullAuthBasic : Bool
  imageFile : String
  yamlPath : String
  images : List String
  deriving DecidableEq, Repr

/-- The values the flag definitions give when no flag is passed
(`newRegistryImagePullCmd` and the three subcommand constructors). -/
def defaultFlags : Flags where
  registryPullRegistryDir := "/var/lib/registry"
  registryPullAuths := []
  registryPullArch := "amd64"
  registryPullMaxPullProcs := 5
  registryPullAuthBasic := false
  imageFile := "ImageFile"
  yamlPath := ""
  images := []

/-- What the process does that can be seen from outside, in order. -/
inductive Event where
  | printFlags
  | logDebug (auth : GoMap String)
  | logError (msg : String)
  | newImageSaver (maxPullProcs : Int) (auth : GoMap AuthConfig) (basic : Bool)
  | saveImages (images : List String) (dir : String) (platform : Platform)
  deriving DecidableEq, Repr

/-- The helpers of the repository that the command calls and that live in other packages. -/
structure Env where
  /-- The function `file.IsExist`. -/
  IsExist : String → Bool
  /-- The function `maps.StringToMap(data, split)`. -/
  StringToMap : String → String → GoMap String
  /-- The function `passwd.LoginAuthDecode`: the decoded string and the error. -/
  LoginAuthDecode : String → String × Option String
  /-- The function `file.ReadLines`: the lines and the error. -/
  ReadLines : String → List String × Option String
  /-- The function `buildimage.ParseYamlImages`: the images and the error. -/
  ParseYamlImages : String → List String × Option String
  /-- The call `registry.NewImageSaver(ctx, maxPullProcs, auth, basic).SaveImages(images, dir,
  platform)`: the report and the error. -/
  SaveImages : Int → GoMap AuthConfig → Bool → List String → String → Platform →
    Report × Option String

deriving instance DecidableEq for Except

/-- A computation of the process: the events so far, and either `os.Exit(code)` or a value. -/
abbrev Proc (α : Type) := List Event × Except Nat α

/-! ## `validateRegistryImagePull` -/

/-- The message logged for an entry without an `address` key. -/
def authsFormatMsg : String :=
  "auths format is error, format is \"address=docker.io&&auth=YWRtaW46YWRtaW4=\"."

/-- The `else` branch of the loop body of `validateRegistryImagePull`, up to the store into
`data`: the credential built from one parsed entry. -/
def buildAuthConfig (env : Env) (auth : GoMap String) : AuthConfig :=
  let userAndPwd := (env.LoginAuthDecode (auth.index "auth")).1
  let authConfig : AuthConfig := { ServerAddress := auth.index "address" }
  if userAndPwd ≠ "" then
    match strings.Split userAndPwd ':' with
    | [u, p] => { authConfig with Username := u, Password := p }
    | _ => authConfig
  else authConfig

/-- The `for _, a := range registryPullAuths` loop, `data` being the table so far. -/
def validateLoop (env : Env) : List String → GoMap AuthConfig → Proc (GoMap AuthConfig)
  | [], data => ([], .ok data)
  | a :: rest, data =>
    let auth := env.StringToMap a "&&"
    match auth.get? "address" with
    | none => ([.logDebug auth, .logError authsFormatMsg], .error 1)
    | some _ =>
      let authConfig := buildAuthConfig env auth
      let r := validateLoop env rest (data.set authConfig.ServerAddress authConfig)
      (.logDebug auth :: r.1, r.2)

/-- The function `validateRegistryImagePull`. -/
def validateRegistryImagePull (env : Env) (flags : Flags) : Proc (GoMap AuthConfig) :=
  if !env.IsExist flags.registryPullRegistryDir then
    ([.logError "registry data dir is not exist"], .error 1)
  else validateLoop env flags.registryPullAuths []

/-! ## The three subcommands -/

/-- The tail shared, line for line, by the three `Run` functions: build the saver, save the
images, and exit with status 1 when `SaveImages` returns an error. The report is dropped
(`_, err = is.SaveImages(...)`). -/
def saveWith (env : Env) (flags : Flags) (auth : GoMap AuthConfig) (images : List String) :
    Proc Unit :=
  let platform : Platform := { OS := "linux", Architecture := flags.registryPullArch }
  let calls : List Event :=
    [.newImageSaver flags.registryPullMaxPullProcs auth flags.registryPullAuthBasic,
     .saveImages images flags.registryPullRegistryDir platform]
  match (env.SaveImages flags.registryPullMaxPullProcs auth flags.registryPullAuthBasic images
      flags.registryPullRegistryDir platform).2 with
  | some err => (calls ++ [.logError ("pull registry images is error: " ++ err)], .error 1)
  | none => (calls, .ok ())

/-- The `PreRun` of `newRegistryImagePullRawCmd`. -/
def newRegistryImagePullRawCmd.PreRun (env : Env) (flags : Flags) : Proc (GoMap AuthConfig) :=
  match validateRegistryImagePull env flags with
  | (tr, .error c) => (tr, .error c)
  | (tr, .ok auth) =>
    if !env.IsExist flags.imageFile then
      (tr ++ [.logError "ImageFile path is not exist"], .error 1)
    else (tr, .ok auth)

/-- The `Run` of `newRegistryImagePullRawCmd`. -/
def newRegistryImagePullRawCmd.Run (env : Env) (flags : Flags) (auth : GoMap AuthConfig) :
    Proc Unit :=
  match env.ReadLines flags.imageFile with
  | (_, some err) =>
    ([.printFlags, .logError ("ImageFile convert images is error: " ++ err)], .error 1)
  | (images, none) =>
    let r := saveWith env flags auth images
    (.printFlags :: r.1, r.2)

/-- The `PreRun` of `newRegistryImagePullYamlCmd`. -/
def newRegistryImagePullYamlCmd.PreRun (env : Env) (flags : Flags) : Proc (GoMap AuthConfig) :=
  match validateRegistryImagePull env flags with
  | (tr, .error c) => (tr, .error c)
  | (tr, .ok auth) =>
    if !env.IsExist flags.yamlPath then
      (tr ++ [.logError "yaml data dir path is not exist"], .error 1)
    else (tr, .ok auth)

/-- The `Run` of `newRegistryImagePullYamlCmd`. -/
def newRegistryImagePullYamlCmd.Run (env : Env) (flags : Flags) (auth : GoMap AuthConfig) :
    Proc Unit :=
  match env.ParseYamlImages flags.yamlPath with
  | (_, some err) =>
    ([.printFlags, .logError ("yaml path convert images is error: " ++ err)], .error 1)
  | (images, none) =>
    let r := saveWith env flags auth images
    (.printFlags :: r.1, r.2)

/-- The `PreRun` of `newRegistryImagePullDefaultCmd`. -/
def newRegistryImagePullDefaultCmd.PreRun (env : Env) (flags : Flags) :
    Proc (GoMap AuthConfig) :=
  validateRegistryImagePull env flags

/-- The `Run` of `newRegistryImagePullDefaultCmd`. -/
def newRegistryImagePullDefaultCmd.Run (env : Env) (flags : Flags) (auth : GoMap AuthConfig) :
    Proc Unit :=
  let r := saveWith env flags auth flags.images
  (.printFlags :: r.1, r.2)

/-- The three `pull` subcommands. -/
inductive Sub where
  | raw
  | yaml
  | dflt
  deriving DecidableEq, Repr

/-- The `PreRun` of a subcommand. -/
def Sub.PreRun : Sub → Env → Flags → Proc (GoMap AuthConfig)
  | .raw => newRegistryImagePullRawCmd.PreRun
  | .yaml => newRegistryImagePullYamlCmd.PreRun
  | .dflt => newRegistryImagePullDefaultCmd.PreRun

/-- The `Run` of a subcommand. -/
def Sub.Run : Sub → Env → Flags → GoMap AuthConfig → Proc Unit
  | .raw => newRegistryImagePullRawCmd.Run
  | .yaml => newRegistryImagePullYamlCmd.Run
  | .dflt => newRegistryImagePullDefaultCmd.Run

/-- The test a subcommand's `PreRun` makes after `validateRegistryImagePull`: `raw` that the
image file exists, `yaml` that the yaml path exists, `default` none. -/
def Sub.fileExists : Sub → Env → Flags → Bool
  | .raw, env, flags => env.IsExist flags.imageFile
  | .yaml, env, flags => env.IsExist flags.yamlPath
  | .dflt, _, _ => true

/-- Where a subcommand takes its image list from: the list and the error of the read. -/
def Sub.resolveImages : Sub → Env → Flags → List String × Option String
  | .raw, env, flags => env.ReadLines flags.imageFile
  | .yaml, env, flags => env.ParseYamlImages flags.yamlPath
  | .dflt, _, flags => (flags.images, none)

/-- One run of `sealctl registry pull <sub>`: cobra calls `PreRun`, then `Run`; an `os.Exit`
ends the process at once, and a `Run` that returns ends it with status 0. The result is the
events of the run and the exit status. -/
def pull (sub : Sub) (env : Env) (flags : Flags) : List Event × Nat :=
  match sub.PreRun env flags with
  | (tr, .error c) => (tr, c)
  | (tr, .ok auth) =>
    match sub.Run env flags auth with
    | (tr2, .error c) => (tr ++ tr2, c)
    | (tr2, .ok _) => (tr ++ tr2, 0)

/-- Whether an event is a call into the image saver (`NewImageSaver` or `SaveImages`). -/
def Event.isSaverCall : Event → Bool
  | .newImageSaver _ _ _ => true
  | .saveImages _ _ _ => true
  | _ => false

/-- Whether an event is a `SaveImages` call. -/
def Event.isSaveImages : Event → Bool
  | .saveImages _ _ _ => true
  | _ => false

/-- The `address` of an entry of `--auths`, when its parsed map has one. -/
def addressOf (env : Env) (a : String) : Option String :=
  (env.StringToMap a "&&").get? "address"

/-- The string `userAndPwd` the loop decodes from an entry of `--auths`; the error of the
decoder is dropped (`userAndPwd, _ := passwd.LoginAuthDecode(auth["auth"])`). -/
def decodedSecret (env : Env) (a : String) : String :=
  (env.LoginAuthDecode ((env.StringToMap a "&&").index "auth")).1

/-- The platform every subcommand passes to `SaveImages`. -/
def platformOf (flags : Flags) : Platform :=
  { OS := "linux", Architecture := flags.registryPullArch }

/-- The credential the loop builds from an entry of `--auths`. -/
def credentialOf (env : Env) (a : String) : AuthConfig :=
  buildAuthConfig env (env.StringToMap a "&&")

/-! ## Sample environment

The helpers of the other packages at the handful of inputs used below: `StringToMap` on the
entries shown, `LoginAuthDecode` (standard base64) on the `auth` values shown. -/

/-- The function `maps.StringToMap` at the sample entries (key=value pairs joined by `&&`). -/
def sampleStringToMap (data _split : String) : GoMap String :=
  if data = "address=docker.io&&auth=YWRtaW46YWRtaW4=" then
    [("address", "docker.io"), ("auth", "YWRtaW46YWRtaW4=")]
  else if data = "address=docker.io&&auth=YTpiOmM=" then
    [("address", "docker.io"), ("auth", "YTpiOmM=")]
  else if data = "address=quay.io&&auth=!!!" then
    [("address", "quay.io"), ("auth", "!!!")]
  else if data = "address=ghcr.io" then
    [("address", "ghcr.io")]
  else if data = "auth=YWRtaW46YWRtaW4=" then
    [("auth", "YWRtaW46YWRtaW4=")]
  else []

/-- The function `passwd.LoginAuthDecode` at the sample values: `YWRtaW46YWRtaW4=` is the
base64 of `admin:admin`, `YTpiOmM=` of `a:b:c`, and `!!!` is not base64. -/
def sampleLoginAuthDecode (auth : String) : String × Option String :=
  if auth = "YWRtaW46YWRtaW4=" then ("admin:admin", none)
  else if auth = "YTpiOmM=" then ("a:b:c", none)
  else if auth = "!!!" then ("", some "illegal base64 data at input byte 0")
  else ("", none)

/-- A sample environment: every path exists, the files `ImageFile` and `images.yaml` list one
image and every other file lists none, and `SaveImages` reports one failed outcome per image
without returning an error. -/
def sampleEnv : Env where
  IsExist := fun _ => true
  StringToMap := sampleStringToMap
  LoginAuthDecode := sampleLoginAuthDecode
  ReadLines := fun f => if f = "ImageFile" then (["nosuch/image:doesnotexist"], none) else ([], none)
  ParseYamlImages := fun f =>
    if f = "images.yaml" then (["nosuch/image:doesnotexist"], none) else ([], none)
  SaveImages := fun _ _ _ images _ _ =>
    ({ succeededCount := 0, failedCount := images.length,
       outcomes := images.map (fun i => { imageReference := i, success := false,
                                          errorDetail := "reference not found" }) }, none)

/-- The sample environment with no path existing. -/
def sampleEnvNoDir : Env := { sampleEnv with IsExist := fun _ => false }

/-- Three entries, the middle one without an `address` key. -/
def flagsNoAddress : Flags :=
  { defaultFlags with
    registryPullAuths :=
      ["address=docker.io&&auth=YWRtaW46YWRtaW4=", "auth=YWRtaW46YWRtaW4=", "address=ghcr.io"] }

/-- One entry with an `address` key and an `auth` value that is not base64. -/
def flagsUndecodable : Flags :=
  { defaultFlags with registryPullAuths := ["address=quay.io&&auth=!!!"] }

/-- One entry in the documented format. -/
def flagsAdmin : Flags :=
  { defaultFlags with registryPullAuths := ["address=docker.io&&auth=YWRtaW46YWRtaW4="] }

/-- Three entries, the first and the last for the same address; the secret of the last
decodes to `a:b:c`. -/
def flagsTwice : Flags :=
  { defaultFlags with
    registryPullAuths :=
      ["address=docker.io&&auth=YWRtaW46YWRtaW4=", "address=ghcr.io",
       "address=docker.io&&auth=YTpiOmM="] }

/-- One image to pull, by each of the three ways of naming it. -/
def flagsOneImage : Flags :=
  { defaultFlags with images := ["nosuch/image:doesnotexist"], yamlPath := "images.yaml" }

/-- No image to pull, by each of the three ways of naming it. -/
def flagsNoImage : Flags :=
  { defaultFlags with imageFile := "Empty", yamlPath := "empty.yaml" }


/-! ## Lemmas on Go maps -/

theorem GoMap.get?_erase_ne {V : Type} (m : GoMap V) (k k' : String) (h : k ≠ k') :
    GoMap.get? (m.erase k) k' = GoMap.get? m k' := by
  induction m with
  | nil => rfl
  | cons e rest ih =>
    obtain ⟨ek, ev⟩ := e
    by_cases hk : ek = k
    · subst hk
      simp [GoMap.erase, GoMap.get?, ih, h]
    · by_cases hk' : ek = k'
      · simp only [GoMap.erase, if_neg hk, GoMap.get?, if_pos hk']
      · simp only [GoMap.erase, if_neg hk, GoMap.get?, if_neg hk', ih]

theorem GoMap.get?_set {V : Type} (m : GoMap V) (k k' : String) (v : V) :
    GoMap.get? (m.set k v) k' = if k = k' then some v else GoMap.get? m k' := by
  by_cases h : k = k'
  · simp [GoMap.set, GoMap.get?, h]
  · simp [GoMap.set, GoMap.get?, h, GoMap.get?_erase_ne m k k' h]

theorem GoMap.mem_erase {V : Type} (m : GoMap V) (k : String) (e : String × V) :
    e ∈ m.erase k ↔ e ∈ m ∧ e.1 ≠ k := by
  induction m with
  | nil => simp [GoMap.erase]
  | cons x rest ih =>
    obtain ⟨xk, xv⟩ := x
    by_cases hk : xk = k
    · subst hk
      simp only [GoMap.erase, if_true, ih, List.mem_cons]
      constructor
      · rintro ⟨h1, h2⟩
        exact ⟨Or.inr h1, h2⟩
      · rintro ⟨h1 | h1, h2⟩
        · exact absurd (by rw [h1]) h2
        · exact ⟨h1, h2⟩
    · simp only [GoMap.erase, if_neg hk, List.mem_cons, ih]
      constructor
      · rintro (h1 | ⟨h1, h2⟩)
        · exact ⟨Or.inl h1, by rw [h1]; exact hk⟩
        · exact ⟨Or.inr h1, h2⟩
      · rintro ⟨h1 | h1, h2⟩
        · exact Or.inl h1
        · exact Or.inr ⟨h1, h2⟩

theorem GoMap.erase_sublist {V : Type} (m : GoMap V) (k : String) :
    List.Sublist (m.erase k) m := by
  induction m with
  | nil => exact List.Sublist.slnil
  | cons x rest ih =>
    obtain ⟨xk, xv⟩ := x
    by_cases hk : xk = k
    · simp only [GoMap.erase, if_pos hk]
      exact List.Sublist.cons _ ih
    · simp only [GoMap.erase, if_neg hk]
      exact List.Sublist.cons₂ _ ih

theorem GoMap.mem_keys_set {V : Type} (m : GoMap V) (k k' : String) (v : V) :
    k' ∈ GoMap.keys (m.set k v) ↔ k' = k ∨ k' ∈ GoMap.keys m := by
  simp only [GoMap.keys, GoMap.set, List.map_cons, List.mem_cons, List.mem_map]
  constructor
  · rintro (h | ⟨x, hx, rfl⟩)
    · exact Or.inl h
    · exact Or.inr ⟨x, ((GoMap.mem_erase m k x).1 hx).1, rfl⟩
  · rintro (h | ⟨x, hx, rfl⟩)
    · exact Or.inl h
    · by_cases hk : x.1 = k
      · exact Or.inl hk
      · exact Or.inr ⟨x, (GoMap.mem_erase m k x).2 ⟨hx, hk⟩, rfl⟩

theorem GoMap.nodup_keys_set {V : Type} (m : GoMap V) (k : String) (v : V)
    (h : (GoMap.keys m).Nodup) : (GoMap.keys (m.set k v)).Nodup := by
  simp only [GoMap.keys, GoMap.set, List.map_cons, List.nodup_cons, List.mem_map]
  refine ⟨?_, ?_⟩
  · rintro ⟨x, hx, hxk⟩
    exact ((GoMap.mem_erase m k x).1 hx).2 hxk
  · exact List.Nodup.sublist ((GoMap.erase_sublist m k).map Prod.fst) h

theorem GoMap.mem_set {V : Type} (m : GoMap V) (k : String) (v : V) (e : String × V)
    (h : e ∈ m.set k v) : e = (k, v) ∨ e ∈ m := by
  simp only [GoMap.set, List.mem_cons] at h
  rcases h with h | h
  · exact Or.inl h
  · exact Or.inr ((GoMap.mem_erase m k e).1 h).1

theorem GoMap.mem_keys_iff_get? {V : Type} (m : GoMap V) (k : String) :
    k ∈ GoMap.keys m ↔ ∃ v, GoMap.get? m k = some v := by
  induction m with
  | nil => simp [GoMap.keys, GoMap.get?]
  | cons e rest ih =>
    obtain ⟨ek, ev⟩ := e
    by_cases hk : ek = k
    · simp [GoMap.keys, GoMap.get?, hk]
    · have hk' : ¬ k = ek := fun h => hk h.symm
      simpa [GoMap.keys, GoMap.get?, hk, hk'] using ih

theorem GoMap.mem_iff_get?_of_nodup {V : Type} (m : GoMap V) (h : (GoMap.keys m).Nodup)
    (k : String) (v : V) : (k, v) ∈ m ↔ GoMap.get? m k = some v := by
  induction m with
  | nil => simp [GoMap.get?]
  | cons e rest ih =>
    obtain ⟨ek, ev⟩ := e
    simp only [GoMap.keys, List.map_cons, List.nodup_cons] at h
    by_cases hk : ek = k
    · subst hk
      have hnot : (ek, v) ∉ rest := fun hm => h.1 (List.mem_map_of_mem Prod.fst hm)
      simp only [List.mem_cons, Prod.mk.injEq, true_and, hnot, or_false, GoMap.get?, if_true,
        Option.some.injEq]
      exact eq_comm
    · have hk' : ¬ k = ek := fun h => hk h.symm
      simpa [GoMap.get?, hk, hk'] using ih h.2

/-! ## Lemmas on `strings.Split` -/

theorem splitOnChar_ne_nil (sep : Char) (l : List Char) : splitOnChar sep l ≠ [] := by
  cases l with
  | nil => simp [splitOnChar]
  | cons c cs =>
    simp only [splitOnChar]
    split
    · simp
    · split <;> simp

theorem splitOnChar_length (sep : Char) (l : List Char) :
    (splitOnChar sep l).length = l.count sep + 1 := by
  induction l with
  | nil => simp [splitOnChar]
  | cons c cs ih =>
    simp only [splitOnChar]
    by_cases hc : c = sep
    · subst hc
      simp [ih]
    · have hc' : ¬ (c == sep) = true := by simpa using hc
      rw [if_neg hc, List.count_cons, if_neg hc']
      split
      · rename_i h
        exact absurd h (splitOnChar_ne_nil sep cs)
      · rename_i p ps h
        rw [h] at ih
        simpa using ih

theorem splitOnChar_of_not_mem (sep : Char) (l : List Char) (h : sep ∉ l) :
    splitOnChar sep l = [l] := by
  induction l with
  | nil => simp [splitOnChar]
  | cons c cs ih =>
    have hc : ¬ c = sep := fun e => h (by simp [e])
    have hcs : sep ∉ cs := fun e => h (List.mem_cons_of_mem _ e)
    simp only [splitOnChar]
    rw [if_neg hc, ih hcs]

theorem splitOnChar_append_sep (sep : Char) (u p : List Char) (h : sep ∉ u) :
    splitOnChar sep (u ++ sep :: p) = u :: splitOnChar sep p := by
  induction u with
  | nil => simp [splitOnChar]
  | cons c cs ih =>
    have hc : ¬ c = sep := fun e => h (by simp [e])
    have hcs : sep ∉ cs := fun e => h (List.mem_cons_of_mem _ e)
    rw [List.cons_append]
    simp only [splitOnChar]
    rw [if_neg hc, ih hcs]

theorem strings.Split_length (s : String) (sep : Char) :
    (strings.Split s sep).length = s.data.count sep + 1 := by
  simp [strings.Split, splitOnChar_length]

theorem strings.Split_pair (u p : String) (hu : ':' ∉ u.data) (hp : ':' ∉ p.data) :
    strings.Split (u ++ ":" ++ p) ':' = [u, p] := by
  have h : (u ++ ":" ++ p).data = u.data ++ ':' :: p.data := by
    simp [String.data_append]
  simp [strings.Split, h, splitOnChar_append_sep _ _ _ hu, splitOnChar_of_not_mem _ _ hp]


/-! ## Lemmas on the validation loop -/

theorem GoMap.index_of_get? (m : GoMap String) (k h : String) (hg : GoMap.get? m k = some h) :
    GoMap.index m k = h := by
  simp [GoMap.index, hg]

theorem buildAuthConfig_ServerAddress (env : Env) (auth : GoMap String) :
    (buildAuthConfig env auth).ServerAddress = auth.index "address" := by
  unfold buildAuthConfig
  dsimp only
  split
  · split <;> rfl
  · rfl

theorem credentialOf_ServerAddress (env : Env) (a h : String) (ha : addressOf env a = some h) :
    (credentialOf env a).ServerAddress = h := by
  rw [credentialOf, buildAuthConfig_ServerAddress]
  exact GoMap.index_of_get? _ _ _ ha

theorem validateLoop_cons_some (env : Env) (a : String) (rest : List String)
    (data : GoMap AuthConfig) (h : String) (ha : addressOf env a = some h) :
    validateLoop env (a :: rest) data =
      (Event.logDebug (env.StringToMap a "&&") ::
        (validateLoop env rest (data.set h (credentialOf env a))).1,
       (validateLoop env rest (data.set h (credentialOf env a))).2) := by
  have hs := credentialOf_ServerAddress env a h ha
  unfold addressOf at ha
  unfold credentialOf at hs
  simp only [validateLoop, ha, credentialOf, hs]

theorem validateLoop_cons_none (env : Env) (a : String) (rest : List String)
    (data : GoMap AuthConfig) (ha : addressOf env a = none) :
    validateLoop env (a :: rest) data =
      ([Event.logDebug (env.StringToMap a "&&"), Event.logError authsFormatMsg],
       Except.error 1) := by
  unfold addressOf at ha
  simp only [validateLoop, ha]

theorem validateLoop_error (env : Env) (auths : List String) (data : GoMap AuthConfig)
    (h : ∃ a ∈ auths, addressOf env a = none) :
    (validateLoop env auths data).2 = Except.error 1 := by
  induction auths generalizing data with
  | nil => simp at h
  | cons a rest ih =>
    cases ha : addressOf env a with
    | none => rw [validateLoop_cons_none env a rest data ha]
    | some k =>
      rw [validateLoop_cons_some env a rest data k ha]
      apply ih
      obtain ⟨b, hb, hbn⟩ := h
      rcases List.mem_cons.1 hb with rfl | hb
      · rw [ha] at hbn
        cases hbn
      · exact ⟨b, hb, hbn⟩

theorem validateLoop_trace (env : Env) (auths : List String) (data : GoMap AuthConfig) :
    ∀ e ∈ (validateLoop env auths data).1,
      (∃ m, e = Event.logDebug m) ∨ e = Event.logError authsFormatMsg := by
  induction auths generalizing data with
  | nil => simp [validateLoop]
  | cons a rest ih =>
    cases ha : addressOf env a with
    | none =>
      rw [validateLoop_cons_none env a rest data ha]
      intro e he
      simp only [List.mem_cons, List.mem_singleton, List.not_mem_nil, or_false] at he
      rcases he with rfl | rfl
      · exact Or.inl ⟨_, rfl⟩
      · exact Or.inr rfl
    | some k =>
      rw [validateLoop_cons_some env a rest data k ha]
      intro e he
      rcases List.mem_cons.1 he with rfl | he
      · exact Or.inl ⟨_, rfl⟩
      · exact ih _ e he

theorem validateLoop_ok (env : Env) (auths : List String) (data : GoMap AuthConfig)
    (hall : ∀ a ∈ auths, addressOf env a ≠ none) (hnd : (GoMap.keys data).Nodup)
    (hkey : ∀ e ∈ data, e.2.ServerAddress = e.1) :
    ∃ out, validateLoop env auths data =
        (auths.map (fun a => Event.logDebug (env.StringToMap a "&&")), Except.ok out) ∧
      (GoMap.keys out).Nodup ∧ (∀ e ∈ out, e.2.ServerAddress = e.1) ∧
      ∀ k, GoMap.get? out k =
        match auths.reverse.find? (fun a => decide (addressOf env a = some k)) with
        | some a => some (credentialOf env a)
        | none => GoMap.get? data k := by
  induction auths generalizing data with
  | nil => exact ⟨data, rfl, hnd, hkey, fun k => rfl⟩
  | cons a rest ih =>
    cases ha : addressOf env a with
    | none => exact absurd ha (hall a (List.mem_cons_self _ _))
    | some h =>
      have hkey' : ∀ e ∈ data.set h (credentialOf env a), e.2.ServerAddress = e.1 := by
        intro e he
        rcases GoMap.mem_set _ _ _ _ he with rfl | he
        · exact credentialOf_ServerAddress env a h ha
        · exact hkey e he
      obtain ⟨out, hout, hnd', hk', hget⟩ :=
        ih (data.set h (credentialOf env a)) (fun b hb => hall b (List.mem_cons_of_mem _ hb))
          (GoMap.nodup_keys_set _ _ _ hnd) hkey'
      refine ⟨out, ?_, hnd', hk', ?_⟩
      · rw [validateLoop_cons_some env a rest data h ha, hout]
        rfl
      · intro k
        rw [hget k, List.reverse_cons, List.find?_append]
        cases hf : List.find? (fun a => decide (addressOf env a = some k)) rest.reverse with
        | some b => rfl
        | none =>
          by_cases hk : h = k
          · subst hk
            simp [GoMap.get?_set, ha]
          · have hk2 : ¬ some h = some k := fun e => hk (Option.some.inj e)
            simp [GoMap.get?_set, ha, hk, hk2]

theorem validateRegistryImagePull_of_exists (env : Env) (flags : Flags)
    (hdir : env.IsExist flags.registryPullRegistryDir = true) :
    validateRegistryImagePull env flags = validateLoop env flags.registryPullAuths [] := by
  simp [validateRegistryImagePull, hdir]

theorem validateRegistryImagePull_of_not_exists (env : Env) (flags : Flags)
    (hdir : env.IsExist flags.registryPullRegistryDir = false) :
    validateRegistryImagePull env flags =
      ([Event.logError "registry data dir is not exist"], Except.error 1) := by
  simp [validateRegistryImagePull, hdir]

theorem PreRun_of_validate_error (sub : Sub) (env : Env) (flags : Flags) (tr : List Event)
    (c : Nat) (h : validateRegistryImagePull env flags = (tr, Except.error c)) :
    sub.PreRun env flags = (tr, Except.error c) := by
  cases sub <;>
    simp [Sub.PreRun, newRegistryImagePullRawCmd.PreRun, newRegistryImagePullYamlCmd.PreRun,
      newRegistryImagePullDefaultCmd.PreRun, h]

theorem pull_of_validate_error (sub : Sub) (env : Env) (flags : Flags) (tr : List Event)
    (c : Nat) (h : validateRegistryImagePull env flags = (tr, Except.error c)) :
    pull sub env flags = (tr, c) := by
  simp [pull, PreRun_of_validate_error sub env flags tr c h]

theorem PreRun_ok_validate (sub : Sub) (env : Env) (flags : Flags) (auth : GoMap AuthConfig)
    (h : (sub.PreRun env flags).2 = Except.ok auth) :
    (validateRegistryImagePull env flags).2 = Except.ok auth ∧
      (sub.PreRun env flags).1 = (validateRegistryImagePull env flags).1 := by
  cases sub
  · simp only [Sub.PreRun, newRegistryImagePullRawCmd.PreRun] at h ⊢
    split at h
    · cases h
    · rename_i tr a hv
      split at h
      · cases h
      · rename_i hex
        simp only [Except.ok.injEq] at h
        simp [hv, h, hex]
  · simp only [Sub.PreRun, newRegistryImagePullYamlCmd.PreRun] at h ⊢
    split at h
    · cases h
    · rename_i tr a hv
      split at h
      · cases h
      · rename_i hex
        simp only [Except.ok.injEq] at h
        simp [hv, h, hex]
  · exact ⟨h, rfl⟩

theorem Run_of_resolveImages (sub : Sub) (env : Env) (flags : Flags) (auth : GoMap AuthConfig)
    (images : List String) (h : sub.resolveImages env flags = (images, none)) :
    sub.Run env flags auth =
      (Event.printFlags :: (saveWith env flags auth images).1,
       (saveWith env flags auth images).2) := by
  cases sub
  · simp only [Sub.resolveImages] at h
    simp [Sub.Run, newRegistryImagePullRawCmd.Run, h]
  · simp only [Sub.resolveImages] at h
    simp [Sub.Run, newRegistryImagePullYamlCmd.Run, h]
  · simp only [Sub.resolveImages, Prod.mk.injEq, and_true] at h
    simp [Sub.Run, newRegistryImagePullDefaultCmd.Run, h]

theorem pull_of_ok (sub : Sub) (env : Env) (flags : Flags) (auth : GoMap AuthConfig)
    (images : List String) (hpre : (sub.PreRun env flags).2 = Except.ok auth)
    (himg : sub.resolveImages env flags = (images, none)) :
    pull sub env flags =
      match (env.SaveImages flags.registryPullMaxPullProcs auth flags.registryPullAuthBasic
        images flags.registryPullRegistryDir (platformOf flags)).2 with
      | some err =>
        ((validateRegistryImagePull env flags).1 ++
          [Event.printFlags,
           Event.newImageSaver flags.registryPullMaxPullProcs auth flags.registryPullAuthBasic,
           Event.saveImages images flags.registryPullRegistryDir (platformOf flags),
           Event.logError ("pull registry images is error: " ++ err)], 1)
      | none =>
        ((validateRegistryImagePull env flags).1 ++
          [Event.printFlags,
           Event.newImageSaver flags.registryPullMaxPullProcs auth flags.registryPullAuthBasic,
           Event.saveImages images flags.registryPullRegistryDir (platformOf flags)], 0) := by
  have htr := (PreRun_ok_validate sub env flags auth hpre).2
  have hrun := Run_of_resolveImages sub env flags auth images himg
  cases hp : sub.PreRun env flags with
  | mk tr r =>
    rw [hp] at hpre htr
    simp only at hpre htr
    subst hpre
    simp only [pull, hp, hrun, saveWith, platformOf, ← htr]
    cases hs : (env.SaveImages flags.registryPullMaxPullProcs auth flags.registryPullAuthBasic
        images flags.registryPullRegistryDir
        { OS := "linux", Architecture := flags.registryPullArch }).2 with
    | none => simp
    | some err => simp


/-! ## Lemmas on the credential of one entry -/

theorem credentialOf_pair (env : Env) (a h u p : String) (haddr : addressOf env a = some h)
    (hdec : decodedSecret env a = u ++ ":" ++ p) (hu : ':' ∉ u.data) (hp : ':' ∉ p.data) :
    credentialOf env a = { ServerAddress := h, Username := u, Password := p } := by
  have hidx : GoMap.index (env.StringToMap a "&&") "address" = h :=
    GoMap.index_of_get? _ _ _ haddr
  have hne : ¬ (u ++ ":" ++ p = "") := by
    intro e
    have hd := congrArg String.data e
    simp [String.data_append] at hd
  unfold decodedSecret at hdec
  simp only [credentialOf, buildAuthConfig, hdec, hidx, ne_eq, hne, not_false_eq_true, if_true,
    strings.Split_pair u p hu hp]

theorem credentialOf_anonymous (env : Env) (a h : String) (haddr : addressOf env a = some h)
    (hcount : (decodedSecret env a).data.count ':' ≠ 1) :
    credentialOf env a = { ServerAddress := h } := by
  have hidx : GoMap.index (env.StringToMap a "&&") "address" = h :=
    GoMap.index_of_get? _ _ _ haddr
  have hlen : (strings.Split (decodedSecret env a) ':').length ≠ 2 := by
    rw [strings.Split_length]
    omega
  unfold decodedSecret at hcount hlen
  simp only [credentialOf, buildAuthConfig, hidx]
  split
  · split
    · rename_i u p hs
      rw [hs] at hlen
      exact absurd rfl hlen
    · rfl
  · rfl

theorem find?_reverse_last {α : Type} (q : α → Bool) (pre : List α) (a : α) (post : List α)
    (ha : q a = true) (hpost : ∀ b ∈ post, q b = false) :
    (pre ++ a :: post).reverse.find? q = some a := by
  have hnone : post.reverse.find? q = none := by
    rw [List.find?_eq_none]
    intro b hb
    simp [hpost b (List.mem_reverse.1 hb)]
  rw [List.reverse_append, List.reverse_cons, List.append_assoc, List.find?_append, hnone]
  simp [List.find?_cons, ha]

theorem validateLoop_env_congr (env env' : Env) (hmap : env'.StringToMap = env.StringToMap)
    (hdec : ∀ s, (env'.LoginAuthDecode s).1 = (env.LoginAuthDecode s).1)
    (auths : List String) (data : GoMap AuthConfig) :
    validateLoop env' auths data = validateLoop env auths data := by
  induction auths generalizing data with
  | nil => rfl
  | cons a rest ih =>
    simp only [validateLoop, buildAuthConfig, hmap, hdec, ih]

theorem validateRegistryImagePull_table (env : Env) (flags : Flags)
    (hdir : env.IsExist flags.registryPullRegistryDir = true)
    (hall : ∀ a ∈ flags.registryPullAuths, addressOf env a ≠ none) :
    ∃ data, (validateRegistryImagePull env flags).2 = Except.ok data ∧
      (GoMap.keys data).Nodup ∧
      (∀ k, k ∈ GoMap.keys data ↔ ∃ a ∈ flags.registryPullAuths, addressOf env a = some k) ∧
      (∀ k c, (k, c) ∈ data → c.ServerAddress = k) ∧
      (∀ pre a post k, flags.registryPullAuths = pre ++ a :: post →
        addressOf env a = some k → (∀ b ∈ post, addressOf env b ≠ some k) →
        ∀ c, (k, c) ∈ data ↔ c = credentialOf env a) := by
  obtain ⟨data, hv, hnd, hkey, hget⟩ :=
    validateLoop_ok env flags.registryPullAuths [] hall (by simp [GoMap.keys]) (by simp)
  refine ⟨data, ?_, hnd, ?_, fun k c hm => hkey (k, c) hm, ?_⟩
  · rw [validateRegistryImagePull_of_exists env flags hdir, hv]
  · intro k
    rw [GoMap.mem_keys_iff_get?, hget k]
    cases hf : List.find? (fun a => decide (addressOf env a = some k))
        flags.registryPullAuths.reverse with
    | none =>
      rw [List.find?_eq_none] at hf
      constructor
      · rintro ⟨v, hv⟩
        cases hv
      · rintro ⟨a, ha, hk⟩
        exact absurd (by simpa using hk) (hf a (List.mem_reverse.2 ha))
    | some b =>
      simp only [Option.some.injEq, exists_eq', true_iff]
      exact ⟨b, List.mem_reverse.1 (List.mem_of_find?_eq_some hf),
        by simpa using List.find?_some hf⟩
  · intro pre a post k hsplit ha hpost c
    rw [GoMap.mem_iff_get?_of_nodup data hnd, hget k, hsplit,
      find?_reverse_last _ pre a post (by simpa using ha) (fun b hb => by simpa using hpost b hb)]
    simp only [Option.some.injEq]
    exact eq_comm


theorem validateRegistryImagePull_trace (env : Env) (flags : Flags) :
    ∀ e ∈ (validateRegistryImagePull env flags).1,
      (∃ m, e = Event.logDebug m) ∨ ∃ msg, e = Event.logError msg := by
  intro e he
  cases hdir : env.IsExist flags.registryPullRegistryDir with
  | false =>
    rw [validateRegistryImagePull_of_not_exists env flags hdir] at he
    exact Or.inr ⟨_, List.mem_singleton.1 he⟩
  | true =>
    rw [validateRegistryImagePull_of_exists env flags hdir] at he
    rcases validateLoop_trace env _ _ e he with h | h
    · exact Or.inl h
    · exact Or.inr ⟨_, h⟩

theorem pull_saver_calls (sub : Sub) (env : Env) (flags : Flags) (auth : GoMap AuthConfig)
    (images : List String) (hpre : (sub.PreRun env flags).2 = Except.ok auth)
    (himg : sub.resolveImages env flags = (images, none)) :
    (pull sub env flags).1.filter Event.isSaverCall =
      [Event.newImageSaver flags.registryPullMaxPullProcs auth flags.registryPullAuthBasic,
       Event.saveImages images flags.registryPullRegistryDir (platformOf flags)] := by
  have hfil : (validateRegistryImagePull env flags).1.filter Event.isSaverCall = [] := by
    rw [List.filter_eq_nil_iff]
    intro e he
    rcases validateRegistryImagePull_trace env flags e he with ⟨m, rfl⟩ | ⟨msg, rfl⟩ <;>
      simp [Event.isSaverCall]
  rw [pull_of_ok sub env flags auth images hpre himg]
  split <;> simp [List.filter_append, hfil, List.filter, Event.isSaverCall]

theorem PreRun_of_validate_ok (sub : Sub) (env : Env) (flags : Flags) (tr : List Event)
    (auth : GoMap AuthConfig) (hv : validateRegistryImagePull env flags = (tr, Except.ok auth))
    (hfile : sub.fileExists env flags = true) :
    sub.PreRun env flags = (tr, Except.ok auth) := by
  cases sub
  · simp only [Sub.fileExists] at hfile
    simp [Sub.PreRun, newRegistryImagePullRawCmd.PreRun, hv, hfile]
  · simp only [Sub.fileExists] at hfile
    simp [Sub.PreRun, newRegistryImagePullYamlCmd.PreRun, hv, hfile]
  · simpa [Sub.PreRun, newRegistryImagePullDefaultCmd.PreRun] using hv

theorem validateRegistryImagePull_decode_error (env : Env) (flags : Flags) :
    validateRegistryImagePull
        { env with LoginAuthDecode := fun s => ((env.LoginAuthDecode s).1, none) } flags =
      validateRegistryImagePull env flags := by
  simp only [validateRegistryImagePull]
  rw [validateLoop_env_congr env
    { env with LoginAuthDecode := fun s => ((env.LoginAuthDecode s).1, none) } rfl
    (fun _ => rfl)]

theorem pull_decode_error (sub : Sub) (env : Env) (flags : Flags) :
    pull sub { env with LoginAuthDecode := fun s => ((env.LoginAuthDecode s).1, none) } flags =
      pull sub env flags := by
  have hv := validateRegistryImagePull_decode_error env flags
  cases sub
  · simp only [pull, Sub.PreRun, newRegistryImagePullRawCmd.PreRun, hv]
    rfl
  · simp only [pull, Sub.PreRun, newRegistryImagePullYamlCmd.PreRun, hv]
    rfl
  · simp only [pull, Sub.PreRun, newRegistryImagePullDefaultCmd.PreRun, hv]
    rfl

/-! ## The claims -/

/-- C1: when at least one entry of `--auths` parses to a map without an `address` key,
wherever it stands and whatever the other entries are, `validateRegistryImagePull` ends the
process with status 1 and returns no table; for each of the three subcommands the run exits
with status 1, `Run` is not entered (no `PrintFlags`) and neither `NewImageSaver` nor
`SaveImages` is called. -/
theorem missing_address_aborts (sub : Sub) (env : Env) (flags : Flags)
    (h : ∃ a ∈ flags.registryPullAuths, addressOf env a = none) :
    (validateRegistryImagePull env flags).2 = Except.error 1 ∧
      (pull sub env flags).2 = 1 ∧
      (∀ e ∈ (pull sub env flags).1, e.isSaverCall = false) ∧
      Event.printFlags ∉ (pull sub env flags).1 := by
  have hv : (validateRegistryImagePull env flags).2 = Except.error 1 := by
    cases hdir : env.IsExist flags.registryPullRegistryDir with
    | false => rw [validateRegistryImagePull_of_not_exists env flags hdir]
    | true =>
      rw [validateRegistryImagePull_of_exists env flags hdir]
      exact validateLoop_error env _ _ h
  have hp : pull sub env flags = ((validateRegistryImagePull env flags).1, 1) :=
    pull_of_validate_error sub env flags _ 1 (Prod.ext rfl hv)
  refine ⟨hv, by rw [hp], ?_, ?_⟩
  · intro e he
    rw [hp] at he
    rcases validateRegistryImagePull_trace env flags e he with ⟨m, rfl⟩ | ⟨msg, rfl⟩ <;> rfl
  · intro he
    rw [hp] at he
    rcases validateRegistryImagePull_trace env flags _ he with ⟨m, hm⟩ | ⟨msg, hm⟩ <;> cases hm

theorem missing_address_aborts_witness :
    (∃ a ∈ flagsNoAddress.registryPullAuths, addressOf sampleEnv a = none) ∧
      (validateRegistryImagePull sampleEnv flagsNoAddress).2 = Except.error 1 ∧
      (pull Sub.dflt sampleEnv flagsNoAddress).2 = 1 ∧
      (∀ e ∈ (pull Sub.dflt sampleEnv flagsNoAddress).1, e.isSaverCall = false) ∧
      Event.printFlags ∉ (pull Sub.dflt sampleEnv flagsNoAddress).1 :=
  ⟨by decide, missing_address_aborts Sub.dflt sampleEnv flagsNoAddress (by decide)⟩

/-- C7: when the directory of `--data-dir` does not exist, whatever `--auths` holds,
`validateRegistryImagePull` logs that one error and ends the process with status 1 before it
looks at any entry (no entry is logged) and returns no table; for each of the three
subcommands the whole run is that one log line and exit status 1, so `SaveImages` is not
called. -/
theorem missing_data_dir_aborts (sub : Sub) (env : Env) (flags : Flags)
    (h : env.IsExist flags.registryPullRegistryDir = false) :
    validateRegistryImagePull env flags =
        ([Event.logError "registry data dir is not exist"], Except.error 1) ∧
      pull sub env flags = ([Event.logError "registry data dir is not exist"], 1) :=
  ⟨validateRegistryImagePull_of_not_exists env flags h,
   pull_of_validate_error sub env flags _ 1 (validateRegistryImagePull_of_not_exists env flags h)⟩

theorem missing_data_dir_aborts_witness :
    sampleEnvNoDir.IsExist flagsAdmin.registryPullRegistryDir = false ∧
      validateRegistryImagePull sampleEnvNoDir flagsAdmin =
        ([Event.logError "registry data dir is not exist"], Except.error 1) ∧
      pull Sub.raw sampleEnvNoDir flagsAdmin =
        ([Event.logError "registry data dir is not exist"], 1) :=
  ⟨by decide, missing_data_dir_aborts Sub.raw sampleEnvNoDir flagsAdmin (by decide)⟩

/-- C8: without flags the architecture is `amd64`, the parallelism limit 5 and basic-auth
false; and for every flag setting and each of the three subcommands, once `PreRun` has passed
and the image list has been read, the table handed over is the one
`validateRegistryImagePull` returned and the calls into the saver are exactly
`NewImageSaver(max-pull-procs, table, basic-auth)` followed by `SaveImages(images, data-dir,
platform)` with OS `linux` and the architecture of `--arch`. -/
theorem config_forwarded (sub : Sub) (env : Env) (flags : Flags) (auth : GoMap AuthConfig)
    (images : List String) (hpre : (sub.PreRun env flags).2 = Except.ok auth)
    (himg : sub.resolveImages env flags = (images, none)) :
    defaultFlags.registryPullArch = "amd64" ∧ defaultFlags.registryPullMaxPullProcs = 5 ∧
      defaultFlags.registryPullAuthBasic = false ∧
      (validateRegistryImagePull env flags).2 = Except.ok auth ∧
      (pull sub env flags).1.filter Event.isSaverCall =
        [Event.newImageSaver flags.registryPullMaxPullProcs auth flags.registryPullAuthBasic,
         Event.saveImages images flags.registryPullRegistryDir
           { OS := "linux", Architecture := flags.registryPullArch }] := by
  refine ⟨rfl, rfl, rfl, (PreRun_ok_validate sub env flags auth hpre).1, ?_⟩
  have hfil : (validateRegistryImagePull env flags).1.filter Event.isSaverCall = [] := by
    rw [List.filter_eq_nil_iff]
    intro e he
    rcases validateRegistryImagePull_trace env flags e he with ⟨m, rfl⟩ | ⟨msg, rfl⟩ <;>
      simp [Event.isSaverCall]
  rw [pull_of_ok sub env flags auth images hpre himg]
  split <;> simp [List.filter_append, hfil, List.filter, Event.isSaverCall, platformOf]

theorem config_forwarded_witness :
    (Sub.yaml.PreRun sampleEnv flagsOneImage).2 = Except.ok [] ∧
      Sub.yaml.resolveImages sampleEnv flagsOneImage = (["nosuch/image:doesnotexist"], none) ∧
      defaultFlags.registryPullArch = "amd64" ∧ defaultFlags.registryPullMaxPullProcs = 5 ∧
      defaultFlags.registryPullAuthBasic = false ∧
      (validateRegistryImagePull sampleEnv flagsOneImage).2 = Except.ok [] ∧
      (pull Sub.yaml sampleEnv flagsOneImage).1.filter Event.isSaverCall =
        [Event.newImageSaver flagsOneImage.registryPullMaxPullProcs []
           flagsOneImage.registryPullAuthBasic,
         Event.saveImages ["nosuch/image:doesnotexist"] flagsOneImage.registryPullRegistryDir
           { OS := "linux", Architecture := flagsOneImage.registryPullArch }] :=
  ⟨by decide, by decide,
   config_forwarded Sub.yaml sampleEnv flagsOneImage [] ["nosuch/image:doesnotexist"]
     (by decide) (by decide)⟩


/-! ### The exit status and the report of `SaveImages` -/

/-- C3, as stated, fails: in the sample environment `SaveImages` returns a report with one
failed outcome and no error, and each of the three subcommands exits with status 0. -/
theorem failed_outcome_exit_zero :
    ((sampleEnv.SaveImages 5 [] false ["nosuch/image:doesnotexist"] "/var/lib/registry"
        { OS := "linux", Architecture := "amd64" }).1.outcomes.any
        (fun o => !o.success)) = true ∧
      pull Sub.raw sampleEnv flagsOneImage =
        ([Event.printFlags, Event.newImageSaver 5 [] false,
          Event.saveImages ["nosuch/image:doesnotexist"] "/var/lib/registry"
            { OS := "linux", Architecture := "amd64" }], 0) ∧
      pull Sub.yaml sampleEnv flagsOneImage = pull Sub.raw sampleEnv flagsOneImage ∧
      pull Sub.dflt sampleEnv flagsOneImage = pull Sub.raw sampleEnv flagsOneImage := by
  decide

/-- C3, amended: for each of the three subcommands, once `PreRun` has passed and the image
list has been read, the exit status is 0 exactly when `SaveImages` returns no error and 1
otherwise; the report `SaveImages` returns plays no part in it. -/
theorem exit_status_follows_error (sub : Sub) (env : Env) (flags : Flags)
    (auth : GoMap AuthConfig) (images : List String)
    (hpre : (sub.PreRun env flags).2 = Except.ok auth)
    (himg : sub.resolveImages env flags = (images, none)) :
    ((pull sub env flags).2 = 0 ↔
        (env.SaveImages flags.registryPullMaxPullProcs auth flags.registryPullAuthBasic images
          flags.registryPullRegistryDir (platformOf flags)).2 = none) ∧
      ((pull sub env flags).2 = 0 ∨ (pull sub env flags).2 = 1) := by
  rw [pull_of_ok sub env flags auth images hpre himg]
  cases (env.SaveImages flags.registryPullMaxPullProcs auth flags.registryPullAuthBasic images
      flags.registryPullRegistryDir (platformOf flags)).2 <;> simp

theorem exit_status_follows_error_witness :
    (Sub.raw.PreRun sampleEnv flagsOneImage).2 = Except.ok [] ∧
      Sub.raw.resolveImages sampleEnv flagsOneImage = (["nosuch/image:doesnotexist"], none) ∧
      ((pull Sub.raw sampleEnv flagsOneImage).2 = 0 ↔
        (sampleEnv.SaveImages flagsOneImage.registryPullMaxPullProcs []
          flagsOneImage.registryPullAuthBasic ["nosuch/image:doesnotexist"]
          flagsOneImage.registryPullRegistryDir (platformOf flagsOneImage)).2 = none) ∧
      ((pull Sub.raw sampleEnv flagsOneImage).2 = 0 ∨
        (pull Sub.raw sampleEnv flagsOneImage).2 = 1) :=
  ⟨by decide, by decide,
   exit_status_follows_error Sub.raw sampleEnv flagsOneImage [] ["nosuch/image:doesnotexist"]
     (by decide) (by decide)⟩

/-! ### The empty image list -/

/-- C4, as stated, fails: `pull default` without `--images` calls `SaveImages` with the empty
list, and so do `pull raw` and `pull yaml` on a file that lists no image; in the sample
environment the run then exits with status 0. -/
theorem empty_list_reaches_SaveImages :
    flagsNoImage.images = [] ∧
      pull Sub.dflt sampleEnv flagsNoImage =
        ([Event.printFlags, Event.newImageSaver 5 [] false,
          Event.saveImages [] "/var/lib/registry"
            { OS := "linux", Architecture := "amd64" }], 0) ∧
      pull Sub.raw sampleEnv flagsNoImage = pull Sub.dflt sampleEnv flagsNoImage ∧
      pull Sub.yaml sampleEnv flagsNoImage = pull Sub.dflt sampleEnv flagsNoImage := by
  decide

/-- C4, amended: the subcommands make no check of the image list. For each of them, once
`PreRun` has passed and the resolved list is empty, the calls into the saver are exactly
`NewImageSaver(max-pull-procs, table, basic-auth)` followed by `SaveImages` with the empty
list, and the exit status is non-zero exactly when that `SaveImages` call returns an error. -/
theorem empty_list_is_forwarded (sub : Sub) (env : Env) (flags : Flags)
    (auth : GoMap AuthConfig) (hpre : (sub.PreRun env flags).2 = Except.ok auth)
    (himg : sub.resolveImages env flags = ([], none)) :
    (pull sub env flags).1.filter Event.isSaverCall =
        [Event.newImageSaver flags.registryPullMaxPullProcs auth flags.registryPullAuthBasic,
         Event.saveImages [] flags.registryPullRegistryDir (platformOf flags)] ∧
      Event.newImageSaver flags.registryPullMaxPullProcs auth flags.registryPullAuthBasic ∈
        (pull sub env flags).1 ∧
      Event.saveImages [] flags.registryPullRegistryDir (platformOf flags) ∈
        (pull sub env flags).1 ∧
      ((pull sub env flags).2 ≠ 0 ↔
        (env.SaveImages flags.registryPullMaxPullProcs auth flags.registryPullAuthBasic []
          flags.registryPullRegistryDir (platformOf flags)).2 ≠ none) := by
  refine ⟨pull_saver_calls sub env flags auth [] hpre himg, ?_⟩
  rw [pull_of_ok sub env flags auth [] hpre himg]
  cases (env.SaveImages flags.registryPullMaxPullProcs auth flags.registryPullAuthBasic []
      flags.registryPullRegistryDir (platformOf flags)).2 <;> simp

theorem empty_list_is_forwarded_witness :
    (Sub.dflt.PreRun sampleEnv defaultFlags).2 = Except.ok [] ∧
      Sub.dflt.resolveImages sampleEnv defaultFlags = ([], none) ∧
      (pull Sub.dflt sampleEnv defaultFlags).1.filter Event.isSaverCall =
        [Event.newImageSaver defaultFlags.registryPullMaxPullProcs []
           defaultFlags.registryPullAuthBasic,
         Event.saveImages [] defaultFlags.registryPullRegistryDir
           (platformOf defaultFlags)] ∧
      Event.newImageSaver defaultFlags.registryPullMaxPullProcs []
          defaultFlags.registryPullAuthBasic ∈ (pull Sub.dflt sampleEnv defaultFlags).1 ∧
      Event.saveImages [] defaultFlags.registryPullRegistryDir (platformOf defaultFlags) ∈
        (pull Sub.dflt sampleEnv defaultFlags).1 ∧
      ((pull Sub.dflt sampleEnv defaultFlags).2 ≠ 0 ↔
        (sampleEnv.SaveImages defaultFlags.registryPullMaxPullProcs []
          defaultFlags.registryPullAuthBasic [] defaultFlags.registryPullRegistryDir
          (platformOf defaultFlags)).2 ≠ none) :=
  ⟨by decide, by decide,
   empty_list_is_forwarded Sub.dflt sampleEnv defaultFlags [] (by decide) (by decide)⟩

/-! ### The credential table -/

/-- C5: when the data directory exists and every entry of `--auths` has an `address` key,
`validateRegistryImagePull` returns a table in which no key occurs twice, whose keys are
exactly the addresses of the entries, in which every credential is stored under its own
`ServerAddress`, and in which the credential of an address is the one built from the last
entry that names it. -/
theorem table_one_credential_per_address (env : Env) (flags : Flags)
    (hdir : env.IsExist flags.registryPullRegistryDir = true)
    (hall : ∀ a ∈ flags.registryPullAuths, addressOf env a ≠ none) :
    ∃ data, (validateRegistryImagePull env flags).2 = Except.ok data ∧
      (GoMap.keys data).Nodup ∧
      (∀ k, k ∈ GoMap.keys data ↔ ∃ a ∈ flags.registryPullAuths, addressOf env a = some k) ∧
      (∀ k c, (k, c) ∈ data → c.ServerAddress = k) ∧
      (∀ pre a post k, flags.registryPullAuths = pre ++ a :: post →
        addressOf env a = some k → (∀ b ∈ post, addressOf env b ≠ some k) →
        ∀ c, (k, c) ∈ data ↔ c = credentialOf env a) :=
  validateRegistryImagePull_table env flags hdir hall

theorem table_one_credential_per_address_witness :
    sampleEnv.IsExist flagsTwice.registryPullRegistryDir = true ∧
      (∀ a ∈ flagsTwice.registryPullAuths, addressOf sampleEnv a ≠ none) ∧
      ∃ data, (validateRegistryImagePull sampleEnv flagsTwice).2 = Except.ok data ∧
        (GoMap.keys data).Nodup ∧
        (∀ k, k ∈ GoMap.keys data ↔
          ∃ a ∈ flagsTwice.registryPullAuths, addressOf sampleEnv a = some k) ∧
        (∀ k c, (k, c) ∈ data → c.ServerAddress = k) ∧
        (∀ pre a post k, flagsTwice.registryPullAuths = pre ++ a :: post →
          addressOf sampleEnv a = some k → (∀ b ∈ post, addressOf sampleEnv b ≠ some k) →
          ∀ c, (k, c) ∈ data ↔ c = credentialOf sampleEnv a) :=
  ⟨by decide, by decide,
   table_one_credential_per_address sampleEnv flagsTwice (by decide) (by decide)⟩

/-- C6: when the data directory exists and `--auths` is one entry whose map has `address` h
and whose `auth` value decodes to `u:p` with no `:` in u or in p, the table returned is the
single binding of h to the credential with `ServerAddress` h, `Username` u and `Password` p
(and every other field empty). -/
theorem documented_entry_decodes (env : Env) (flags : Flags) (a h u p : String)
    (hauths : flags.registryPullAuths = [a])
    (hdir : env.IsExist flags.registryPullRegistryDir = true)
    (haddr : addressOf env a = some h) (hdec : decodedSecret env a = u ++ ":" ++ p)
    (hu : ':' ∉ u.data) (hp : ':' ∉ p.data) :
    (validateRegistryImagePull env flags).2 =
        Except.ok [(h, { ServerAddress := h, Username := u, Password := p })] ∧
      ∀ data, (validateRegistryImagePull env flags).2 = Except.ok data →
        GoMap.get? data h = some { ServerAddress := h, Username := u, Password := p } := by
  have hv : (validateRegistryImagePull env flags).2 =
      Except.ok [(h, { ServerAddress := h, Username := u, Password := p })] := by
    rw [validateRegistryImagePull_of_exists env flags hdir, hauths,
      validateLoop_cons_some env a [] [] h haddr, credentialOf_pair env a h u p haddr hdec hu hp]
    rfl
  refine ⟨hv, ?_⟩
  intro data hd
  rw [hv] at hd
  cases hd
  simp [GoMap.get?]

theorem documented_entry_decodes_witness :
    flagsAdmin.registryPullAuths = ["address=docker.io&&auth=YWRtaW46YWRtaW4="] ∧
      sampleEnv.IsExist flagsAdmin.registryPullRegistryDir = true ∧
      addressOf sampleEnv "address=docker.io&&auth=YWRtaW46YWRtaW4=" = some "docker.io" ∧
      decodedSecret sampleEnv "address=docker.io&&auth=YWRtaW46YWRtaW4=" =
        "admin" ++ ":" ++ "admin" ∧
      ':' ∉ "admin".data ∧
      ((validateRegistryImagePull sampleEnv flagsAdmin).2 =
          Except.ok [("docker.io",
            { ServerAddress := "docker.io", Username := "admin", Password := "admin" })] ∧
        ∀ data, (validateRegistryImagePull sampleEnv flagsAdmin).2 = Except.ok data →
          GoMap.get? data "docker.io" =
            some { ServerAddress := "docker.io", Username := "admin", Password := "admin" }) :=
  ⟨by decide, by decide, by decide, by decide, by decide,
   documented_entry_decodes sampleEnv flagsAdmin "address=docker.io&&auth=YWRtaW46YWRtaW4="
     "docker.io" "admin" "admin" (by decide) (by decide) (by decide) (by decide) (by decide)
     (by decide)⟩

/-- C10: an entry with `address` h whose decoded secret does not hold exactly one `:` (it is
empty, has none, or has two or more) does not stop the loop: the step stores under h the
credential with `ServerAddress` h and every other field empty and goes on with the next
entry. When, in addition, the data directory exists, every entry has an `address` key and no
later entry names h, the table returned binds h to that anonymous credential. -/
theorem unsplittable_secret_is_anonymous (env : Env) (flags : Flags) (pre : List String)
    (a : String) (post : List String) (h : String)
    (hauths : flags.registryPullAuths = pre ++ a :: post)
    (hdir : env.IsExist flags.registryPullRegistryDir = true)
    (hall : ∀ b ∈ flags.registryPullAuths, addressOf env b ≠ none)
    (haddr : addressOf env a = some h)
    (hcount : (decodedSecret env a).data.count ':' ≠ 1)
    (hpost : ∀ b ∈ post, addressOf env b ≠ some h) :
    (∀ rest data, validateLoop env (a :: rest) data =
        (Event.logDebug (env.StringToMap a "&&") ::
          (validateLoop env rest (data.set h { ServerAddress := h })).1,
         (validateLoop env rest (data.set h { ServerAddress := h })).2)) ∧
      ∃ data, (validateRegistryImagePull env flags).2 = Except.ok data ∧
        ∀ c, (h, c) ∈ data ↔ c = { ServerAddress := h } := by
  have hc := credentialOf_anonymous env a h haddr hcount
  refine ⟨?_, ?_⟩
  · intro rest data
    rw [validateLoop_cons_some env a rest data h haddr, hc]
  · obtain ⟨data, hv, -, -, -, hlast⟩ := validateRegistryImagePull_table env flags hdir hall
    refine ⟨data, hv, ?_⟩
    intro c
    rw [hlast pre a post h hauths haddr hpost c, hc]


/-! ### An `auth` value that does not decode -/

/-- C2, as stated, fails: the entry `address=quay.io&&auth=!!!` has an `address` key and an
`auth` value on which the decoder returns an error, and `validateRegistryImagePull` logs no
error, returns a table with a credential for `quay.io`, and `pull default` goes on to call
`SaveImages` and exits with status 0. -/
theorem undecodable_auth_accepted :
    addressOf sampleEnv "address=quay.io&&auth=!!!" = some "quay.io" ∧
      sampleEnv.LoginAuthDecode
          (GoMap.index (sampleEnv.StringToMap "address=quay.io&&auth=!!!" "&&") "auth") =
        ("", some "illegal base64 data at input byte 0") ∧
      validateRegistryImagePull sampleEnv flagsUndecodable =
        ([Event.logDebug [("address", "quay.io"), ("auth", "!!!")]],
         Except.ok [("quay.io", { ServerAddress := "quay.io" })]) ∧
      pull Sub.dflt sampleEnv flagsUndecodable =
        ([Event.logDebug [("address", "quay.io"), ("auth", "!!!")], Event.printFlags,
          Event.newImageSaver 5 [("quay.io", { ServerAddress := "quay.io" })] false,
          Event.saveImages [] "/var/lib/registry"
            { OS := "linux", Architecture := "amd64" }], 0) := by
  decide

/-- C2, amended: the error returned by `passwd.LoginAuthDecode` is dropped: validation and
the whole run come out the same as with a decoder that returns the same strings and never an
error. When the data directory exists and every entry has an `address` key, whether or not
any `auth` value decodes, validation logs no error and returns a table in which the
credential of an address is the one the loop builds from the string the decoder returned for
the last entry naming it, so every entry's address has a credential; and once the
subcommand's own file test has passed and the image list has been read, `NewImageSaver` is
called with that table and `SaveImages` with the images. -/
theorem decode_error_is_dropped (sub : Sub) (env : Env) (flags : Flags)
    (images : List String)
    (hdir : env.IsExist flags.registryPullRegistryDir = true)
    (hall : ∀ a ∈ flags.registryPullAuths, addressOf env a ≠ none)
    (hfile : sub.fileExists env flags = true)
    (himg : sub.resolveImages env flags = (images, none)) :
    validateRegistryImagePull
        { env with LoginAuthDecode := fun s => ((env.LoginAuthDecode s).1, none) } flags =
        validateRegistryImagePull env flags ∧
      pull sub { env with LoginAuthDecode := fun s => ((env.LoginAuthDecode s).1, none) }
        flags = pull sub env flags ∧
      ∃ data, validateRegistryImagePull env flags =
          (flags.registryPullAuths.map (fun a => Event.logDebug (env.StringToMap a "&&")),
           Except.ok data) ∧
        (∀ pre a post h, flags.registryPullAuths = pre ++ a :: post →
          addressOf env a = some h → (∀ b ∈ post, addressOf env b ≠ some h) →
          ∀ c, (h, c) ∈ data ↔ c = buildAuthConfig env (env.StringToMap a "&&")) ∧
        (∀ a ∈ flags.registryPullAuths, ∀ h, addressOf env a = some h →
          ∃ b ∈ flags.registryPullAuths, addressOf env b = some h ∧
            (h, buildAuthConfig env (env.StringToMap b "&&")) ∈ data) ∧
        (pull sub env flags).1.filter Event.isSaverCall =
          [Event.newImageSaver flags.registryPullMaxPullProcs data flags.registryPullAuthBasic,
           Event.saveImages images flags.registryPullRegistryDir (platformOf flags)] ∧
        ((pull sub env flags).2 = 0 ↔
          (env.SaveImages flags.registryPullMaxPullProcs data flags.registryPullAuthBasic
            images flags.registryPullRegistryDir (platformOf flags)).2 = none) := by
  refine ⟨validateRegistryImagePull_decode_error env flags, pull_decode_error sub env flags, ?_⟩
  obtain ⟨data, hv, hnd, hkey, hget⟩ :=
    validateLoop_ok env flags.registryPullAuths [] hall (by simp [GoMap.keys]) (by simp)
  have hval : validateRegistryImagePull env flags =
      (flags.registryPullAuths.map (fun a => Event.logDebug (env.StringToMap a "&&")),
       Except.ok data) := by
    rw [validateRegistryImagePull_of_exists env flags hdir, hv]
  have hpre : (sub.PreRun env flags).2 = Except.ok data := by
    rw [PreRun_of_validate_ok sub env flags _ data hval hfile]
  refine ⟨data, hval, ?_, ?_, pull_saver_calls sub env flags data images hpre himg, ?_⟩
  · intro pre a post h hsplit ha hpost c
    rw [GoMap.mem_iff_get?_of_nodup data hnd, hget h, hsplit,
      find?_reverse_last _ pre a post (by simpa using ha) (fun b hb => by simpa using hpost b hb)]
    simp only [Option.some.injEq, credentialOf]
    exact eq_comm
  · intro a ha h hah
    cases hf : List.find? (fun a => decide (addressOf env a = some h))
        flags.registryPullAuths.reverse with
    | none =>
      rw [List.find?_eq_none] at hf
      exact absurd (by simpa using hah) (hf a (List.mem_reverse.2 ha))
    | some b =>
      have hg := hget h
      rw [hf] at hg
      exact ⟨b, List.mem_reverse.1 (List.mem_of_find?_eq_some hf),
        by simpa using List.find?_some hf,
        (GoMap.mem_iff_get?_of_nodup data hnd h (credentialOf env b)).2 hg⟩
  · rw [pull_of_ok sub env flags data images hpre himg]
    cases (env.SaveImages flags.registryPullMaxPullProcs data flags.registryPullAuthBasic
        images flags.registryPullRegistryDir (platformOf flags)).2 <;> simp

theorem decode_error_is_dropped_witness :
    sampleEnv.IsExist flagsUndecodable.registryPullRegistryDir = true ∧
      (∀ a ∈ flagsUndecodable.registryPullAuths, addressOf sampleEnv a ≠ none) ∧
      Sub.raw.fileExists sampleEnv flagsUndecodable = true ∧
      Sub.raw.resolveImages sampleEnv flagsUndecodable =
        (["nosuch/image:doesnotexist"], none) ∧
      (sampleEnv.LoginAuthDecode "!!!").2 ≠ none ∧
      validateRegistryImagePull
        { sampleEnv with LoginAuthDecode := fun s => ((sampleEnv.LoginAuthDecode s).1, none) }
        flagsUndecodable = validateRegistryImagePull sampleEnv flagsUndecodable ∧
      pull Sub.raw
        { sampleEnv with LoginAuthDecode := fun s => ((sampleEnv.LoginAuthDecode s).1, none) }
        flagsUndecodable = pull Sub.raw sampleEnv flagsUndecodable ∧
      ∃ data, validateRegistryImagePull sampleEnv flagsUndecodable =
          (flagsUndecodable.registryPullAuths.map
            (fun a => Event.logDebug (sampleEnv.StringToMap a "&&")), Except.ok data) ∧
        (∀ pre a post h, flagsUndecodable.registryPullAuths = pre ++ a :: post →
          addressOf sampleEnv a = some h → (∀ b ∈ post, addressOf sampleEnv b ≠ some h) →
          ∀ c, (h, c) ∈ data ↔ c = buildAuthConfig sampleEnv (sampleEnv.StringToMap a "&&")) ∧
        (∀ a ∈ flagsUndecodable.registryPullAuths, ∀ h, addressOf sampleEnv a = some h →
          ∃ b ∈ flagsUndecodable.registryPullAuths, addressOf sampleEnv b = some h ∧
            (h, buildAuthConfig sampleEnv (sampleEnv.StringToMap b "&&")) ∈ data) ∧
        (pull Sub.raw sampleEnv flagsUndecodable).1.filter Event.isSaverCall =
          [Event.newImageSaver flagsUndecodable.registryPullMaxPullProcs data
             flagsUndecodable.registryPullAuthBasic,
           Event.saveImages ["nosuch/image:doesnotexist"]
             flagsUndecodable.registryPullRegistryDir (platformOf flagsUndecodable)] ∧
        ((pull Sub.raw sampleEnv flagsUndecodable).2 = 0 ↔
          (sampleEnv.SaveImages flagsUndecodable.registryPullMaxPullProcs data
            flagsUndecodable.registryPullAuthBasic ["nosuch/image:doesnotexist"]
            flagsUndecodable.registryPullRegistryDir (platformOf flagsUndecodable)).2 = none) :=
  ⟨by decide, by decide, by decide, by decide, by decide,
   decode_error_is_dropped Sub.raw sampleEnv flagsUndecodable ["nosuch/image:doesnotexist"]
     (by decide) (by decide) (by decide) (by decide)⟩

theorem unsplittable_secret_is_anonymous_witness :
    flagsTwice.registryPullAuths =
        ["address=docker.io&&auth=YWRtaW46YWRtaW4=", "address=ghcr.io"] ++
          "address=docker.io&&auth=YTpiOmM=" :: [] ∧
      decodedSecret sampleEnv "address=docker.io&&auth=YTpiOmM=" = "a:b:c" ∧
      addressOf sampleEnv "address=docker.io&&auth=YTpiOmM=" = some "docker.io" ∧
      (∀ rest data, validateLoop sampleEnv ("address=docker.io&&auth=YTpiOmM=" :: rest) data =
        (Event.logDebug (sampleEnv.StringToMap "address=docker.io&&auth=YTpiOmM=" "&&") ::
          (validateLoop sampleEnv rest
            (data.set "docker.io" { ServerAddress := "docker.io" })).1,
         (validateLoop sampleEnv rest
            (data.set "docker.io" { ServerAddress := "docker.io" })).2)) ∧
      ∃ data, (validateRegistryImagePull sampleEnv flagsTwice).2 = Except.ok data ∧
        ∀ c, ("docker.io", c) ∈ data ↔ c = { ServerAddress := "docker.io" } :=
  ⟨by decide, by decide, by decide,
   unsplittable_secret_is_anonymous sampleEnv flagsTwice
     ["address=docker.io&&auth=YWRtaW46YWRtaW4=", "address=ghcr.io"]
     "address=docker.io&&auth=YTpiOmM=" [] "docker.io" (by decide) (by decide) (by decide)
     (by decide) (by decide) (by decide)⟩

end Sealos
